import Mathlib

/-!
Shallow embedding of the GeoPackage tile-aware merge tool (`src/merge.ts`).

The tool merges two GeoPackage files (SQLite databases holding raster tile
pyramids) into one output file.  A GeoPackage is modelled as a `Gpkg`:
its `sqlite_master` user tables, the three system catalog tables the code
touches (`gpkg_contents`, `gpkg_tile_matrix_set`, `gpkg_tile_matrix`) and the
two format pragmas.  SQL `REAL` and text values that the code only copies
verbatim (extents, pixel sizes, timestamps) are carried opaquely as `Int` /
`String`; no arithmetic is ever performed on them, matching the code.
-/

set_option autoImplicit false

namespace GpkgMerge

/-- The `(zoom_level, tile_column, tile_row)` conflict key of a tile row. -/
structure TileKey where
  zoom : Nat
  col : Nat
  row : Nat
deriving DecidableEq, Inhabited

/-- One row of a tile table: conflict key plus `tile_data` payload bytes. -/
structure TileRow where
  key : TileKey
  data : List Nat
deriving DecidableEq, Inhabited

/-- A table as listed in `sqlite_master`: its name, its column names
(`PRAGMA table_info`) and — when it is a tile table — its tile rows. -/
structure Table where
  name : String
  columns : List String
  rows : List TileRow
deriving DecidableEq, Inhabited

/-- A row of `gpkg_contents`. -/
structure ContentsRow where
  table_name : String
  data_type : String
  identifier : String
  description : String
  last_change : String
  min_x : Int
  min_y : Int
  max_x : Int
  max_y : Int
  srs_id : Int
deriving DecidableEq, Inhabited

/-- A row of `gpkg_tile_matrix_set`. -/
structure TmsRow where
  table_name : String
  srs_id : Int
  min_x : Int
  min_y : Int
  max_x : Int
  max_y : Int
deriving DecidableEq, Inhabited

/-- A row of `gpkg_tile_matrix` (primary key `(table_name, zoom_level)`). -/
structure TmRow where
  table_name : String
  zoom_level : Nat
  matrix_width : Int
  matrix_height : Int
  tile_width : Int
  tile_height : Int
  pixel_x_size : Int
  pixel_y_size : Int
deriving DecidableEq, Inhabited

/-- A GeoPackage file: user tables plus the catalog tables and pragmas the
merge tool reads or writes. -/
structure Gpkg where
  tables : List Table
  contents : List ContentsRow
  tms : List TmsRow
  tm : List TmRow
  application_id : Int
  user_version : Int
deriving DecidableEq, Inhabited

/-! ### SQL `LIKE` on table names

`getDataTables` filters `sqlite_master` with
`name NOT LIKE 'sqlite_%' AND ... 'gpkg_%' ... 'rtree_%' ... 'idx_%'`.
SQLite `LIKE` is case-insensitive on ASCII, `%` matches any run of
characters and `_` matches exactly one character. -/

/-- ASCII lower-casing, as SQLite `LIKE` applies to pattern and text. -/
def asciiLower (c : Char) : Char :=
  if 'A' ≤ c ∧ c ≤ 'Z' then Char.ofNat (c.toNat + 32) else c

/-- One non-`%` pattern character against one text character. -/
def likeCharMatch (p c : Char) : Bool :=
  p = '_' || asciiLower p = asciiLower c

/-- SQLite `LIKE` over character lists: `%` consumes any suffix start, `_`
(through `likeCharMatch`) consumes exactly one character. -/
def likeMatch : List Char → List Char → Bool
  | [], s => s.isEmpty
  | p :: ps, s =>
    if p = '%' then
      (List.range (s.length + 1)).any (fun i => likeMatch ps (s.drop i))
    else
      match s with
      | [] => false
      | c :: cs => likeCharMatch p c && likeMatch ps cs

/-- `name LIKE pat` on strings. -/
def sqlLike (pat s : String) : Bool :=
  likeMatch pat.toList s.toList

/-- A name the `getDataTables` query excludes: it matches one of the four
reserved `LIKE` patterns. -/
def isSystemTable (name : String) : Bool :=
  sqlLike "sqlite_%" name || sqlLike "gpkg_%" name ||
    sqlLike "rtree_%" name || sqlLike "idx_%" name

/-- `getDataTables`: every `sqlite_master` table whose name matches none of
the reserved patterns. -/
def getDataTables (db : Gpkg) : List Table :=
  db.tables.filter (fun t => !isSystemTable t.name)

/-- A table is a tile table when some column is literally named `tile_data`
(case-sensitive exact match, as `col.name === 'tile_data'`). -/
def isTileTable (t : Table) : Bool :=
  t.columns.any (fun c => c = "tile_data")

/-- The `tables.find(...)` step of `createTileTable`: first data table with a
`tile_data` column. -/
def findTileTable (db : Gpkg) : Option Table :=
  (getDataTables db).find? isTileTable

/-! ### Tile-row insertion

`INSERT OR REPLACE` deletes every row conflicting on the
`UNIQUE (zoom_level, tile_column, tile_row)` constraint and inserts the new
row; it always counts as one change.  `INSERT OR IGNORE` drops a conflicting
row silently and counts no change. -/

/-- Does the target table already hold the key? -/
def hasKey (t : List TileRow) (k : TileKey) : Bool :=
  t.any (fun r => r.key = k)

/-- Payload stored under a key (`SELECT tile_data ... WHERE` on the unique key). -/
def lookupKey (t : List TileRow) (k : TileKey) : Option (List Nat) :=
  (t.find? (fun r => r.key = k)).map (fun r => r.data)

/-- One row under `INSERT OR REPLACE`. -/
def insertReplaceRow (t : List TileRow) (r : TileRow) : List TileRow :=
  t.filter (fun x => !(x.key = r.key)) ++ [r]

/-- One row under `INSERT OR IGNORE`, with its change count. -/
def insertIgnoreRow (t : List TileRow) (r : TileRow) : List TileRow × Nat :=
  if hasKey t r.key then (t, 0) else (t ++ [r], 1)

/-- Bulk `INSERT ... SELECT` of a source table's rows, returning the new
target rows and `result.changes`. -/
def insertRows (useIgnore : Bool) : List TileRow → List TileRow → List TileRow × Nat
  | t, [] => (t, 0)
  | t, r :: rs =>
    if useIgnore then
      let s := insertIgnoreRow t r
      let rest := insertRows useIgnore s.1 rs
      (rest.1, s.2 + rest.2)
    else
      let rest := insertRows useIgnore (insertReplaceRow t r) rs
      (rest.1, 1 + rest.2)

/-- The loop body of `mergeTileData`: walk the source's data tables, bulk-copy
each one that has a `tile_data` column, accumulate `totalTiles`. -/
def mergeRowsTables (useIgnore : Bool) : List TileRow → List Table → List TileRow × Nat
  | t, [] => (t, 0)
  | t, tbl :: tbls =>
    if isTileTable tbl then
      let s := insertRows useIgnore t tbl.rows
      let rest := mergeRowsTables useIgnore s.1 tbls
      (rest.1, s.2 + rest.2)
    else mergeRowsTables useIgnore t tbls

/-- `mergeTileData` restricted to the destination table's rows. -/
def mergeRows (target : List TileRow) (source : Gpkg) (useIgnore : Bool) :
    List TileRow × Nat :=
  mergeRowsTables useIgnore target (getDataTables source)

/-- Tile rows contributed by a table list, in visit order. -/
def pooledTables (tbls : List Table) : List TileRow :=
  tbls.foldr (fun t acc => if isTileTable t then t.rows ++ acc else acc) []

/-- All tile rows a source contributes, in the order `mergeTileData` visits
them (data tables in `sqlite_master` order, tile tables only). -/
def pooledRows (db : Gpkg) : List TileRow :=
  pooledTables (getDataTables db)

/-- Does a source file hold a tile row under the key? -/
def sourceHasKey (db : Gpkg) (k : TileKey) : Bool :=
  hasKey (pooledRows db) k

/-- The keys of a row list are pairwise distinct (the `UNIQUE` invariant). -/
def keysNodup (l : List TileRow) : Prop :=
  (l.map (fun r => r.key)).Nodup

instance (l : List TileRow) : Decidable (keysNodup l) := by
  unfold keysNodup
  infer_instance

/-! ### Database-level table access -/

/-- Rows of the table with the given name (empty when absent). -/
def getTableRows (db : Gpkg) (name : String) : List TileRow :=
  match db.tables.find? (fun t => t.name = name) with
  | some t => t.rows
  | none => []

/-- Store new rows into every table carrying the given name. -/
def setTableRows (db : Gpkg) (name : String) (rows : List TileRow) : Gpkg :=
  { db with tables := db.tables.map (fun t => if t.name = name then { t with rows := rows } else t) }

/-- `mergeTileData(targetDb, targetTable, sourceFile, _, useIgnore)`:
attach the source, bulk-copy every tile table, return the change total. -/
def mergeTileData (tgt : Gpkg) (targetTable : String) (source : Gpkg) (useIgnore : Bool) :
    Gpkg × Nat :=
  let r := mergeRows (getTableRows tgt targetTable) source useIgnore
  (setTableRows tgt targetTable r.1, r.2)

/-! ### Errors and exit codes -/

/-- The `throw new Error(...)` sites of `merge.ts`. -/
inductive MergeError where
  | missingFiles
  | noContentsEntry (tableName : String)
  | noTileMatrixSet (tableName : String)
  | noTileMatrix (tableName : String)
  | noTileTables
  | integrityFailed
deriving DecidableEq, Inhabited

/-- `StatusCodes.BAD_REQUEST` from `http-status-codes`. -/
def BAD_REQUEST : Nat := 400

/-- The `status` property of the thrown error object.  Every failure path in
`merge.ts` throws a plain `new Error(message)` — `validateFilesExist`,
`copyTileMetadata`, `createTileTable` and the integrity check alike — and a
plain `Error` has no `status` property, so it reads as `undefined`. -/
def errorStatus : MergeError → Option Nat
  | .missingFiles => none
  | .noContentsEntry _ => none
  | .noTileMatrixSet _ => none
  | .noTileMatrix _ => none
  | .noTileTables => none
  | .integrityFailed => none

/-- The catch handler: `error.status === StatusCodes.BAD_REQUEST ? 1 : 2`. -/
def exitCodeOf (e : MergeError) : Nat :=
  if errorStatus e = some BAD_REQUEST then 1 else 2

/-- `validateFilesExist`: throws a plain `Error` when either path is missing. -/
def validateFilesExist (file1Exists file2Exists : Bool) : Except MergeError Unit :=
  if file1Exists && file2Exists then Except.ok () else Except.error MergeError.missingFiles

/-! ### Metadata templating (`copyTileMetadata`) -/

/-- `INSERT OR REPLACE` into `gpkg_contents` (primary key `table_name`):
delete conflicting rows, insert the new one. -/
def replaceContents (rows : List ContentsRow) (r : ContentsRow) : List ContentsRow :=
  rows.filter (fun x => !(x.table_name = r.table_name)) ++ [r]

/-- `INSERT OR REPLACE` into `gpkg_tile_matrix_set` (primary key `table_name`). -/
def replaceTms (rows : List TmsRow) (r : TmsRow) : List TmsRow :=
  rows.filter (fun x => !(x.table_name = r.table_name)) ++ [r]

/-- `INSERT OR REPLACE` into `gpkg_tile_matrix`
(primary key `(table_name, zoom_level)`). -/
def replaceTm (rows : List TmRow) (r : TmRow) : List TmRow :=
  rows.filter (fun x => !(x.table_name = r.table_name ∧ x.zoom_level = r.zoom_level)) ++ [r]

/-- `copyTileMetadata(sourceDb, targetDb, sourceTableName, targetTableName)`.
`now` stands for `datetime('now')`.  Each `throw` aborts the whole merge, so
the error carries no intermediate target state. -/
def copyTileMetadata (src tgt : Gpkg) (sourceTableName targetTableName now : String) :
    Except MergeError Gpkg :=
  match src.contents.find? (fun c => c.table_name = sourceTableName) with
  | none => Except.error (MergeError.noContentsEntry sourceTableName)
  | some ce =>
    let newContents : ContentsRow :=
      { table_name := targetTableName
        data_type := ce.data_type
        identifier := targetTableName
        description := "Merged tiles from " ++ sourceTableName
        last_change := now
        min_x := ce.min_x, min_y := ce.min_y, max_x := ce.max_x, max_y := ce.max_y
        srs_id := ce.srs_id }
    let tgt1 := { tgt with contents := replaceContents tgt.contents newContents }
    match src.tms.find? (fun ts => ts.table_name = sourceTableName) with
    | none => Except.error (MergeError.noTileMatrixSet sourceTableName)
    | some ts =>
      let newTms : TmsRow :=
        { table_name := targetTableName
          srs_id := ts.srs_id
          min_x := ts.min_x, min_y := ts.min_y, max_x := ts.max_x, max_y := ts.max_y }
      let tgt2 := { tgt1 with tms := replaceTms tgt1.tms newTms }
      let tileMatrices := src.tm.filter (fun m => m.table_name = sourceTableName)
      if tileMatrices.isEmpty then
        Except.error (MergeError.noTileMatrix sourceTableName)
      else
        let newTm := tileMatrices.foldl
          (fun acc m => replaceTm acc { m with table_name := targetTableName }) tgt2.tm
        Except.ok { tgt2 with tm := newTm }

/-- The fresh destination table created by `createTileTable`'s `CREATE TABLE`. -/
def newTileTable (name : String) : Table :=
  { name := name
    columns := ["id", "zoom_level", "tile_column", "tile_row", "tile_data"]
    rows := [] }

/-- `createTileTable(targetDb, tableName, sourceFile1, sourceFile2)`: creates
the destination table, then picks the metadata template — the first file's
tile table when it has one, else the second's — and copies its catalog rows.
The `CREATE TABLE` has executed before any of the throws can fire. -/
def createTileTable (tgt : Gpkg) (tableName : String) (src1 src2 : Gpkg) (now : String) :
    Except MergeError Gpkg :=
  let tgt0 := { tgt with tables := tgt.tables ++ [newTileTable tableName] }
  match findTileTable src1 with
  | some t1 => copyTileMetadata src1 tgt0 t1.name tableName now
  | none =>
    match findTileTable src2 with
    | some t2 => copyTileMetadata src2 tgt0 t2.name tableName now
    | none => Except.error MergeError.noTileTables

/-- `cleanupExistingTables`: `DROP TABLE` every table `getDataTables` lists,
leaving exactly the tables whose names match a reserved pattern. -/
def cleanupExistingTables (db : Gpkg) : Gpkg :=
  { db with tables := db.tables.filter (fun t => isSystemTable t.name) }

/-- `finalizeGeoPackage`: set the two format pragmas. -/
def finalizeGeoPackage (db : Gpkg) : Gpkg :=
  { db with application_id := 1196444487, user_version := 10300 }

/-! ### The main pipeline -/

/-- Insert a zoom level into a sorted duplicate-free list — the result of
`SELECT DISTINCT zoom_level ... ORDER BY zoom_level`. -/
def insertSorted (z : Nat) : List Nat → List Nat
  | [] => [z]
  | x :: xs =>
    if z < x then z :: x :: xs
    else if z = x then x :: xs
    else x :: insertSorted z xs

/-- Sorted distinct zoom levels of a row set. -/
def distinctZooms (rows : List TileRow) : List Nat :=
  rows.foldl (fun acc r => insertSorted r.key.zoom acc) []

/-- What the success path reports. -/
structure Summary where
  final : Gpkg
  merged2 : Nat
  merged1 : Nat
  totalTiles : Nat
  zoomLevels : List Nat
deriving Inhabited

/-- One run of the `try` block of `main`, with the externally observable
sequencing facts: whether `fs.copyFileSync` has produced the output file,
whether the destination `CREATE TABLE` has executed, and whether the two
`mergeTileData` calls ran. -/
structure RunTrace where
  outputWritten : Bool
  tableCreated : Bool
  mergePerformed : Bool
  result : Except MergeError Summary
deriving Inhabited

/-- The main merge sequence, after `validateFilesExist` has passed:
copy file A to the output path, drop the clone's data tables, create and
register the destination table, merge B with `REPLACE`, merge A with
`IGNORE`, set pragmas, count and report.  The integrity check passes on this
model (no file-level corruption is representable). -/
def runMerge (fileA fileB : Gpkg) (tableName now : String) : RunTrace :=
  let target0 := fileA
  let target1 := cleanupExistingTables target0
  match createTileTable target1 tableName fileA fileB now with
  | Except.error e =>
    { outputWritten := true, tableCreated := true, mergePerformed := false
      result := Except.error e }
  | Except.ok target2 =>
    let m2 := mergeTileData target2 tableName fileB false
    let m1 := mergeTileData m2.1 tableName fileA true
    let fin := finalizeGeoPackage m1.1
    let rows := getTableRows fin tableName
    { outputWritten := true, tableCreated := true, mergePerformed := true
      result := Except.ok
        { final := fin
          merged2 := m2.2
          merged1 := m1.2
          totalTiles := rows.length
          zoomLevels := distinctZooms rows } }

/-- The summary of a successful trace. -/
def resultSummary (t : RunTrace) : Option Summary :=
  match t.result with
  | Except.ok s => some s
  | Except.error _ => none

/-- The error of a failed trace. -/
def resultError (t : RunTrace) : Option MergeError :=
  match t.result with
  | Except.ok _ => none
  | Except.error e => some e

/-! ### The `ATTACH DATABASE` statement of `mergeTileData`

The code builds `ATTACH DATABASE '${sourceFile}' AS source_db` by direct
string interpolation.  `parseAttach` is the SQL reading of the resulting
text: fixed head, a single-quoted literal in which a doubled quote stands
for one quote character, then the fixed `AS` clause. -/

/-- The single-quote character. -/
def squoteChar : Char := Char.ofNat 39

/-- `attachStmt p` is the exact text the template literal produces. -/
def attachStmt (sourceFile : String) : String :=
  "ATTACH DATABASE " ++ String.singleton squoteChar ++ sourceFile ++
    String.singleton squoteChar ++ " AS source_db"

/-- Everything up to and including the opening quote. -/
def attachHeadChars : List Char :=
  ("ATTACH DATABASE " ++ String.singleton squoteChar).toList

/-- Everything after the closing quote. -/
def attachTailChars : List Char :=
  " AS source_db".toList

/-- Consume an expected character sequence. -/
def expectChars : List Char → List Char → Option (List Char)
  | [], s => some s
  | _ :: _, [] => none
  | p :: ps, c :: cs => if p = c then expectChars ps cs else none

/-- Scan a single-quoted SQL literal body (opening quote already consumed):
return the literal's character value and the text after the closing quote.
`none` means the literal never closes. -/
def scanLit : List Char → Option (List Char × List Char)
  | [] => none
  | [c] => if c = squoteChar then some ([], []) else none
  | c :: d :: ds =>
    if c = squoteChar then
      if d = squoteChar then
        match scanLit ds with
        | none => none
        | some r => some (squoteChar :: r.1, r.2)
      else some ([], d :: ds)
    else
      match scanLit (d :: ds) with
      | none => none
      | some r => some (c :: r.1, r.2)

/-- Parse a well-formed attach statement: `some p` exactly when the text is
`ATTACH DATABASE <literal> AS source_db` and the literal denotes `p`. -/
def parseAttach (stmt : String) : Option String :=
  match expectChars attachHeadChars stmt.toList with
  | none => none
  | some rest =>
    match scanLit rest with
    | none => none
    | some r => if r.2 = attachTailChars then some (String.mk r.1) else none

/-- Does a path contain a single-quote character? -/
def containsSQuote (s : String) : Bool :=
  s.toList.any (fun c => c = squoteChar)

/-! ### Derived observations and catalog predicates -/

/-- Did an `Except`-modelled call throw? -/
def isErrG (e : Except MergeError Gpkg) : Bool :=
  match e with
  | Except.error _ => true
  | Except.ok _ => false

/-- Payload of a successful `Except`-modelled call. -/
def okGpkg (e : Except MergeError Gpkg) : Gpkg :=
  match e with
  | Except.ok g => g
  | Except.error _ => default

/-- Source table has a `gpkg_contents` entry. -/
def hasContentsEntry (db : Gpkg) (name : String) : Bool :=
  db.contents.any (fun c => c.table_name = name)

/-- Source table has a `gpkg_tile_matrix_set` entry. -/
def hasTmsEntry (db : Gpkg) (name : String) : Bool :=
  db.tms.any (fun x => x.table_name = name)

/-- Source table has at least one `gpkg_tile_matrix` row. -/
def hasTmRows (db : Gpkg) (name : String) : Bool :=
  db.tm.any (fun m => m.table_name = name)

/-- Zoom levels carrying a `gpkg_tile_matrix` row for a table. -/
def tmZoomsFor (db : Gpkg) (name : String) : List Nat :=
  (db.tm.filter (fun m => m.table_name = name)).map (fun m => m.zoom_level)

/-- Literal string prefixing (no wildcards), the claim's reading of
"begins with". -/
def litPrefixOf (lit s : String) : Bool :=
  lit.toList.isPrefixOf s.toList

/-! ### Concrete inputs used to evaluate the claims -/

/-- A tile table with the destination schema. -/
def tileTable (name : String) (rows : List TileRow) : Table :=
  { name := name
    columns := ["id", "zoom_level", "tile_column", "tile_row", "tile_data"]
    rows := rows }

/-- A complete `gpkg_contents` row for a table. -/
def contentsFor (name : String) : ContentsRow :=
  { table_name := name, data_type := "tiles", identifier := name, description := "src"
    last_change := "t0", min_x := 0, min_y := 0, max_x := 1, max_y := 1, srs_id := 4326 }

/-- A complete `gpkg_tile_matrix_set` row for a table. -/
def tmsFor (name : String) : TmsRow :=
  { table_name := name, srs_id := 4326, min_x := 0, min_y := 0, max_x := 1, max_y := 1 }

/-- A `gpkg_tile_matrix` row for a table at one zoom level. -/
def tmFor (name : String) (z : Nat) : TmRow :=
  { table_name := name, zoom_level := z, matrix_width := 1, matrix_height := 1
    tile_width := 256, tile_height := 256, pixel_x_size := 1, pixel_y_size := 1 }

/-- Source A of the concrete scenario: one tile `(0,0,0) -> "a"`, pyramid
metadata at zoom 0 only. -/
def fileA7 : Gpkg :=
  { tables := [tileTable "tiles_a" [⟨⟨0, 0, 0⟩, [97]⟩]]
    contents := [contentsFor "tiles_a"]
    tms := [tmsFor "tiles_a"]
    tm := [tmFor "tiles_a" 0]
    application_id := 0, user_version := 0 }

/-- Source B of the concrete scenario: tiles `(0,0,0) -> "b"` and
`(1,0,1) -> "c"`, pyramid metadata at zooms 0 and 1. -/
def fileB7 : Gpkg :=
  { tables := [tileTable "tiles_b" [⟨⟨0, 0, 0⟩, [98]⟩, ⟨⟨1, 0, 1⟩, [99]⟩]]
    contents := [contentsFor "tiles_b"]
    tms := [tmsFor "tiles_b"]
    tm := [tmFor "tiles_b" 0, tmFor "tiles_b" 1]
    application_id := 0, user_version := 0 }

/-- The concrete scenario's merge run. -/
def traceC7 : RunTrace := runMerge fileA7 fileB7 "merged_tiles" "t1"

/-- Its summary. -/
def sumC7 : Summary := (resultSummary traceC7).getD default

/-- A source with a data table but no `tile_data` column anywhere. -/
def fileA4 : Gpkg :=
  { tables := [{ name := "plain_a", columns := ["x", "y"], rows := [] }]
    contents := [], tms := [], tm := [], application_id := 0, user_version := 0 }

/-- A second source with no `tile_data` column anywhere. -/
def fileB4 : Gpkg :=
  { tables := [{ name := "plain_b", columns := ["u"], rows := [] }]
    contents := [], tms := [], tm := [], application_id := 0, user_version := 0 }

/-- The merge run on two sources without tile tables. -/
def traceC4 : RunTrace := runMerge fileA4 fileB4 "merged_tiles" "t1"

/-- A cloned output holding a user data table named `gpkg1data`: the name
does not begin with `gpkg_` (its fifth character is `1`), yet the `LIKE`
pattern `gpkg_%` matches it because `_` matches any character.  It also
holds an ordinary user table and a literally-prefixed spatial-index table. -/
def fileC9 : Gpkg :=
  { tables := [{ name := "gpkg1data", columns := ["a"], rows := [] },
               { name := "mytiles", columns := ["tile_data"], rows := [] },
               { name := "rtree_tiles_geom", columns := ["id"], rows := [] }]
    contents := [], tms := [], tm := [], application_id := 0, user_version := 0 }

/-- Source A with disjoint keys from `fileB2`. -/
def fileA2 : Gpkg :=
  { tables := [tileTable "tiles_a" [⟨⟨0, 0, 0⟩, [97]⟩, ⟨⟨1, 1, 0⟩, [100]⟩]]
    contents := [contentsFor "tiles_a"]
    tms := [tmsFor "tiles_a"]
    tm := [tmFor "tiles_a" 0, tmFor "tiles_a" 1]
    application_id := 0, user_version := 0 }

/-- Source B with disjoint keys from `fileA2`. -/
def fileB2 : Gpkg :=
  { tables := [tileTable "tiles_b" [⟨⟨1, 0, 1⟩, [99]⟩]]
    contents := [contentsFor "tiles_b"]
    tms := [tmsFor "tiles_b"]
    tm := [tmFor "tiles_b" 1]
    application_id := 0, user_version := 0 }

/-- The merge run on the disjoint pair. -/
def traceC2 : RunTrace := runMerge fileA2 fileB2 "merged_tiles" "t1"

/-- Its summary. -/
def sumC2 : Summary := (resultSummary traceC2).getD default

/-- A source whose tile table lacks every catalog entry. -/
def fileA6 : Gpkg :=
  { tables := [tileTable "tiles_a" [⟨⟨0, 0, 0⟩, [97]⟩]]
    contents := [], tms := [], tm := [], application_id := 0, user_version := 0 }

/-- First templater invocation of the idempotence scenario. -/
def c8out1 : Gpkg := okGpkg (copyTileMetadata fileB7 fileA7 "tiles_b" "merged_tiles" "t1")

/-- Second templater invocation, on the first one's output. -/
def c8out2 : Gpkg := okGpkg (copyTileMetadata fileB7 c8out1 "tiles_b" "merged_tiles" "t2")

/-- A source path containing a single quote. -/
def badPathC10 : String :=
  "data/o" ++ String.singleton squoteChar ++ "k.gpkg"

end GpkgMerge

namespace GpkgMerge

/-! ## Basic facts about the tile store -/

lemma lookupKey_cons (r : TileRow) (t : List TileRow) (k : TileKey) :
    lookupKey (r :: t) k = if r.key = k then some r.data else lookupKey t k := by
  by_cases h : r.key = k <;>
    simp [lookupKey, List.find?_cons_of_pos, List.find?_cons_of_neg, h]

lemma hasKey_cons (r : TileRow) (t : List TileRow) (k : TileKey) :
    hasKey (r :: t) k = (decide (r.key = k) || hasKey t k) := by
  simp [hasKey]

lemma hasKey_append (t l : List TileRow) (k : TileKey) :
    hasKey (t ++ l) k = (hasKey t k || hasKey l k) := by
  simp [hasKey, List.any_append]

lemma hasKey_nil (k : TileKey) : hasKey [] k = false := rfl

lemma exists_lookupKey_of_hasKey (t : List TileRow) (k : TileKey) (h : hasKey t k = true) :
    ∃ p, lookupKey t k = some p := by
  induction t with
  | nil => simp [hasKey] at h
  | cons r rs ih =>
    rw [lookupKey_cons]
    by_cases hk : r.key = k
    · exact ⟨r.data, by simp [hk]⟩
    · rw [hasKey_cons] at h
      simp [hk] at h
      obtain ⟨p, hp⟩ := ih h
      exact ⟨p, by simp [hk, hp]⟩

lemma lookupKey_append_left (t l : List TileRow) (k : TileKey) (h : hasKey t k = true) :
    lookupKey (t ++ l) k = lookupKey t k := by
  induction t with
  | nil => simp [hasKey] at h
  | cons r rs ih =>
    rw [List.cons_append, lookupKey_cons, lookupKey_cons]
    by_cases hk : r.key = k
    · simp [hk]
    · rw [hasKey_cons] at h
      simp [hk] at h
      simp [hk, ih h]

lemma lookupKey_append_right (t l : List TileRow) (k : TileKey) (h : hasKey t k = false) :
    lookupKey (t ++ l) k = lookupKey l k := by
  induction t with
  | nil => simp
  | cons r rs ih =>
    rw [hasKey_cons] at h
    simp only [Bool.or_eq_false_iff, decide_eq_false_iff_not] at h
    rw [List.cons_append, lookupKey_cons]
    simp [h.1, ih h.2]

lemma lookupKey_of_mem_nodup (l : List TileRow) (r : TileRow) (hmem : r ∈ l)
    (hnodup : keysNodup l) : lookupKey l r.key = some r.data := by
  induction l with
  | nil => simp at hmem
  | cons x xs ih =>
    rw [lookupKey_cons]
    rcases List.mem_cons.mp hmem with hx | hx
    · simp [hx]
    · have hkx : ¬ x.key = r.key := by
        intro hk
        have : r.key ∈ xs.map (fun r => r.key) := List.mem_map_of_mem _ hx
        rw [keysNodup, List.map_cons, List.nodup_cons] at hnodup
        exact hnodup.1 (hk ▸ this)
      have hnx : keysNodup xs := by
        rw [keysNodup, List.map_cons, List.nodup_cons] at hnodup
        exact hnodup.2
      simp [hkx, ih hx hnx]

end GpkgMerge

namespace GpkgMerge

/-! ## Facts about the two insert policies -/

lemma hasKey_filter_self (t : List TileRow) (k0 : TileKey) :
    hasKey (t.filter (fun x => !(x.key = k0))) k0 = false := by
  simp only [hasKey, List.any_eq_false]
  intro x hx
  have hmem := List.mem_filter.mp hx
  simpa using hmem.2

lemma hasKey_filter_ne (t : List TileRow) (k0 k : TileKey) (hk : ¬ k0 = k) :
    hasKey (t.filter (fun x => !(x.key = k0))) k = hasKey t k := by
  induction t with
  | nil => rfl
  | cons x xs ih =>
    by_cases hx : x.key = k0
    · have hxk : ¬ x.key = k := by rw [hx]; exact hk
      simp [List.filter_cons, hx, hasKey_cons, hxk, ih, hk]
    · simp [List.filter_cons, hx, hasKey_cons, ih]

lemma lookupKey_filter_ne (t : List TileRow) (k0 k : TileKey) (hk : ¬ k0 = k) :
    lookupKey (t.filter (fun x => !(x.key = k0))) k = lookupKey t k := by
  induction t with
  | nil => rfl
  | cons x xs ih =>
    by_cases hx : x.key = k0
    · have hxk : ¬ x.key = k := by rw [hx]; exact hk
      simp [List.filter_cons, hx, lookupKey_cons, hxk, ih, hk]
    · simp [List.filter_cons, hx, lookupKey_cons, ih]

lemma lookupKey_eq_none (t : List TileRow) (k : TileKey) (h : hasKey t k = false) :
    lookupKey t k = none := by
  rw [hasKey, List.any_eq_false] at h
  rw [lookupKey, List.find?_eq_none.mpr h]
  rfl

lemma hasKey_insertReplaceRow (t : List TileRow) (r : TileRow) (k : TileKey) :
    hasKey (insertReplaceRow t r) k = (hasKey t k || decide (r.key = k)) := by
  rw [insertReplaceRow, hasKey_append]
  by_cases hk : r.key = k
  · subst hk
    simp [hasKey]
  · rw [hasKey_filter_ne t r.key k hk]
    simp [hasKey, hk]

lemma hasKey_insertIgnoreRow (t : List TileRow) (r : TileRow) (k : TileKey) :
    hasKey ((insertIgnoreRow t r).1) k = (hasKey t k || decide (r.key = k)) := by
  rw [insertIgnoreRow]
  by_cases h : hasKey t r.key = true
  · rw [if_pos h]
    by_cases hk : r.key = k
    · subst hk
      simp [h]
    · simp [hk]
  · rw [if_neg h, hasKey_append]
    simp [hasKey]

lemma hasKey_insertRows (pol : Bool) (t : List TileRow) (rs : List TileRow) (k : TileKey) :
    hasKey ((insertRows pol t rs).1) k = (hasKey t k || rs.any (fun r => r.key = k)) := by
  induction rs generalizing t with
  | nil => simp [insertRows]
  | cons r rest ih =>
    cases pol with
    | false =>
      simp only [insertRows, Bool.false_eq_true, if_false]
      rw [ih, hasKey_insertReplaceRow]
      simp [Bool.or_assoc, List.any_cons]
    | true =>
      simp only [insertRows, if_true]
      rw [ih, hasKey_insertIgnoreRow]
      simp [Bool.or_assoc, List.any_cons]

lemma hasKey_mergeRowsTables (pol : Bool) (t : List TileRow) (tbls : List Table) (k : TileKey) :
    hasKey ((mergeRowsTables pol t tbls).1) k
      = (hasKey t k || (pooledTables tbls).any (fun r => r.key = k)) := by
  induction tbls generalizing t with
  | nil => simp [mergeRowsTables, pooledTables]
  | cons tbl rest ih =>
    by_cases ht : isTileTable tbl = true
    · simp only [mergeRowsTables, ht, if_true]
      rw [ih, hasKey_insertRows]
      simp [pooledTables, ht, List.any_append, Bool.or_assoc]
    · simp only [Bool.not_eq_true] at ht
      simp only [mergeRowsTables, ht, Bool.false_eq_true, if_false]
      rw [ih]
      simp [pooledTables, ht]

/-! The `IGNORE` pass never rewrites a key that is already present. -/

lemma lookupKey_insertIgnoreRow_of_hasKey (t : List TileRow) (r : TileRow) (k : TileKey)
    (h : hasKey t k = true) :
    lookupKey ((insertIgnoreRow t r).1) k = lookupKey t k := by
  rw [insertIgnoreRow]
  by_cases hr : hasKey t r.key = true
  · rw [if_pos hr]
  · rw [if_neg hr]
    exact lookupKey_append_left t [r] k h

lemma lookupKey_insertRows_ignore_of_hasKey (t : List TileRow) (rs : List TileRow) (k : TileKey)
    (h : hasKey t k = true) :
    lookupKey ((insertRows true t rs).1) k = lookupKey t k := by
  induction rs generalizing t with
  | nil => simp [insertRows]
  | cons r rest ih =>
    simp only [insertRows, if_true]
    have hk : hasKey ((insertIgnoreRow t r).1) k = true := by
      rw [hasKey_insertIgnoreRow, h, Bool.true_or]
    rw [ih _ hk, lookupKey_insertIgnoreRow_of_hasKey t r k h]

lemma lookupKey_mergeRowsTables_ignore_of_hasKey (t : List TileRow) (tbls : List Table)
    (k : TileKey) (h : hasKey t k = true) :
    lookupKey ((mergeRowsTables true t tbls).1) k = lookupKey t k := by
  induction tbls generalizing t with
  | nil => simp [mergeRowsTables]
  | cons tbl rest ih =>
    by_cases ht : isTileTable tbl = true
    · simp only [mergeRowsTables, ht, if_true]
      have hk : hasKey ((insertRows true t tbl.rows).1) k = true := by
        rw [hasKey_insertRows, h, Bool.true_or]
      rw [ih _ hk, lookupKey_insertRows_ignore_of_hasKey t tbl.rows k h]
    · simp only [Bool.not_eq_true] at ht
      simp only [mergeRowsTables, ht, Bool.false_eq_true, if_false]
      exact ih t h

/-! Provenance of values established by the `REPLACE` pass. -/

lemma lookupKey_insertReplaceRow_eq (t : List TileRow) (r : TileRow) (k : TileKey) :
    lookupKey (insertReplaceRow t r) k
      = if r.key = k then some r.data else lookupKey t k := by
  rw [insertReplaceRow]
  by_cases hk : r.key = k
  · subst hk
    rw [lookupKey_append_right _ _ _ (hasKey_filter_self t r.key)]
    simp [lookupKey_cons]
  · rw [if_neg hk]
    by_cases hf : hasKey t k = true
    · rw [lookupKey_append_left]
      · exact lookupKey_filter_ne t r.key k hk
      · rw [hasKey_filter_ne t r.key k hk]
        exact hf
    · simp only [Bool.not_eq_true] at hf
      rw [lookupKey_append_right]
      · rw [lookupKey_eq_none t k hf, lookupKey_cons]
        simp [hk, lookupKey]
      · rw [hasKey_filter_ne t r.key k hk]
        exact hf

lemma lookupKey_insertRows_replace_mem (t rs : List TileRow) (k : TileKey) (p : List Nat)
    (h : lookupKey ((insertRows false t rs).1) k = some p) :
    lookupKey t k = some p ∨ (⟨k, p⟩ : TileRow) ∈ rs := by
  induction rs generalizing t with
  | nil =>
    simp only [insertRows] at h
    exact Or.inl h
  | cons r rest ih =>
    simp only [insertRows, Bool.false_eq_true, if_false] at h
    rcases ih _ h with hin | hin
    · rw [lookupKey_insertReplaceRow_eq] at hin
      by_cases hk : r.key = k
      · rw [if_pos hk] at hin
        refine Or.inr (List.mem_cons.mpr (Or.inl ?_))
        cases hin
        cases r
        cases hk
        rfl
      · rw [if_neg hk] at hin
        exact Or.inl hin
    · exact Or.inr (List.mem_cons.mpr (Or.inr hin))

lemma lookupKey_mergeRowsTables_replace_mem (t : List TileRow) (tbls : List Table)
    (k : TileKey) (p : List Nat)
    (h : lookupKey ((mergeRowsTables false t tbls).1) k = some p) :
    lookupKey t k = some p ∨ (⟨k, p⟩ : TileRow) ∈ pooledTables tbls := by
  induction tbls generalizing t with
  | nil =>
    simp only [mergeRowsTables] at h
    exact Or.inl h
  | cons tbl rest ih =>
    by_cases ht : isTileTable tbl = true
    · simp only [mergeRowsTables, ht, if_true] at h
      rcases ih _ h with hin | hin
      · rcases lookupKey_insertRows_replace_mem _ _ _ _ hin with hin2 | hin2
        · exact Or.inl hin2
        · refine Or.inr ?_
          simp only [pooledTables, List.foldr_cons, ht, if_true]
          exact List.mem_append.mpr (Or.inl hin2)
      · refine Or.inr ?_
        simp only [pooledTables, List.foldr_cons, ht, if_true]
        exact List.mem_append.mpr (Or.inr hin)
    · simp only [Bool.not_eq_true] at ht
      simp only [mergeRowsTables, ht, Bool.false_eq_true, if_false] at h
      rcases ih _ h with hin | hin
      · exact Or.inl hin
      · refine Or.inr ?_
        simpa [pooledTables, ht] using hin

end GpkgMerge

namespace GpkgMerge

/-! ## Destructuring the metadata templater and the pipeline -/

lemma copyTileMetadata_ok_cases (src tgt : Gpkg) (sn tn now : String) (out : Gpkg)
    (h : copyTileMetadata src tgt sn tn now = Except.ok out) :
    ∃ ce ts, src.contents.find? (fun c => c.table_name = sn) = some ce ∧
      src.tms.find? (fun x => x.table_name = sn) = some ts ∧
      (src.tm.filter (fun m => m.table_name = sn)).isEmpty = false ∧
      out = { tgt with
        contents := replaceContents tgt.contents
          { table_name := tn
            data_type := ce.data_type
            identifier := tn
            description := "Merged tiles from " ++ sn
            last_change := now
            min_x := ce.min_x, min_y := ce.min_y, max_x := ce.max_x, max_y := ce.max_y
            srs_id := ce.srs_id }
        tms := replaceTms tgt.tms
          { table_name := tn
            srs_id := ts.srs_id
            min_x := ts.min_x, min_y := ts.min_y, max_x := ts.max_x, max_y := ts.max_y }
        tm := (src.tm.filter (fun m => m.table_name = sn)).foldl
          (fun acc m => replaceTm acc { m with table_name := tn }) tgt.tm } := by
  rw [copyTileMetadata] at h
  cases hc : src.contents.find? (fun c => c.table_name = sn) with
  | none => rw [hc] at h; cases h
  | some ce =>
    rw [hc] at h
    simp only [] at h
    cases hts : src.tms.find? (fun x => x.table_name = sn) with
    | none => rw [hts] at h; cases h
    | some ts =>
      rw [hts] at h
      simp only [] at h
      by_cases he : (src.tm.filter (fun m => m.table_name = sn)).isEmpty = true
      · rw [if_pos he] at h; cases h
      · rw [if_neg he] at h
        cases h
        exact ⟨ce, ts, rfl, rfl, Bool.not_eq_true _ ▸ Bool.of_not_eq_true he, rfl⟩

lemma copyTileMetadata_ok_tables (src tgt : Gpkg) (sn tn now : String) (out : Gpkg)
    (h : copyTileMetadata src tgt sn tn now = Except.ok out) :
    out.tables = tgt.tables := by
  obtain ⟨ce, ts, _, _, _, hout⟩ := copyTileMetadata_ok_cases src tgt sn tn now out h
  rw [hout]

lemma createTileTable_cases (tgt : Gpkg) (n : String) (s1 s2 : Gpkg) (now : String)
    (out : Gpkg) (h : createTileTable tgt n s1 s2 now = Except.ok out) :
    (∃ t1, findTileTable s1 = some t1 ∧
      copyTileMetadata s1 { tgt with tables := tgt.tables ++ [newTileTable n] }
        t1.name n now = Except.ok out) ∨
    (findTileTable s1 = none ∧ ∃ t2, findTileTable s2 = some t2 ∧
      copyTileMetadata s2 { tgt with tables := tgt.tables ++ [newTileTable n] }
        t2.name n now = Except.ok out) := by
  rw [createTileTable] at h
  cases h1 : findTileTable s1 with
  | some t1 =>
    rw [h1] at h
    exact Or.inl ⟨t1, rfl, h⟩
  | none =>
    rw [h1] at h
    cases h2 : findTileTable s2 with
    | some t2 =>
      rw [h2] at h
      exact Or.inr ⟨rfl, t2, rfl, h⟩
    | none =>
      rw [h2] at h
      cases h

lemma createTileTable_ok_tables (tgt : Gpkg) (n : String) (s1 s2 : Gpkg) (now : String)
    (out : Gpkg) (h : createTileTable tgt n s1 s2 now = Except.ok out) :
    out.tables = tgt.tables ++ [newTileTable n] := by
  rcases createTileTable_cases tgt n s1 s2 now out h with ⟨t1, _, hcopy⟩ | ⟨_, t2, _, hcopy⟩
  · exact copyTileMetadata_ok_tables _ _ _ _ _ _ hcopy
  · exact copyTileMetadata_ok_tables _ _ _ _ _ _ hcopy

lemma runMerge_ok_cases (A B : Gpkg) (name now : String) (s : Summary)
    (h : (runMerge A B name now).result = Except.ok s) :
    ∃ t2, createTileTable (cleanupExistingTables A) name A B now = Except.ok t2 ∧
      s.final = finalizeGeoPackage
        (mergeTileData (mergeTileData t2 name B false).1 name A true).1 ∧
      s.merged2 = (mergeTileData t2 name B false).2 ∧
      s.merged1 = (mergeTileData (mergeTileData t2 name B false).1 name A true).2 ∧
      s.totalTiles = (getTableRows s.final name).length ∧
      s.zoomLevels = distinctZooms (getTableRows s.final name) := by
  rw [runMerge] at h
  cases hc : createTileTable (cleanupExistingTables A) name A B now with
  | error e => rw [hc] at h; cases h
  | ok t2 =>
    rw [hc] at h
    simp only [] at h
    cases h
    refine ⟨t2, rfl, rfl, rfl, rfl, rfl, rfl⟩

/-! Locating the destination table inside the output database. -/

lemma find?_name_sysfilter (l : List Table) (name : String)
    (hname : isSystemTable name = false) :
    (l.filter (fun t => isSystemTable t.name)).find? (fun t => t.name = name) = none := by
  rw [List.find?_eq_none]
  intro t ht hpred
  have hsys := (List.mem_filter.mp ht).2
  have hn : t.name = name := of_decide_eq_true hpred
  rw [hn, hname] at hsys
  cases hsys

lemma find?_append_of_none (p : Table → Bool) (l1 l2 : List Table)
    (h : l1.find? p = none) : (l1 ++ l2).find? p = l2.find? p := by
  rw [List.find?_append, h]
  rfl

lemma getTableRows_created (A : Gpkg) (name : String)
    (hname : isSystemTable name = false) (t2 : Gpkg)
    (ht2 : t2.tables = (cleanupExistingTables A).tables ++ [newTileTable name]) :
    getTableRows t2 name = [] ∧
      t2.tables.find? (fun t => t.name = name) = some (newTileTable name) := by
  have hfind : t2.tables.find? (fun t => t.name = name) = some (newTileTable name) := by
    rw [ht2]
    rw [cleanupExistingTables]
    rw [find?_append_of_none _ _ _ (find?_name_sysfilter A.tables name hname)]
    simp [newTileTable]
  refine ⟨?_, hfind⟩
  rw [getTableRows, hfind]
  rfl

lemma find?_setTableRows_aux (l : List Table) (n : String) (rows : List TileRow) :
    (l.map (fun t => if t.name = n then { t with rows := rows } else t)).find?
        (fun t => t.name = n)
      = (l.find? (fun t => t.name = n)).map (fun t => { t with rows := rows }) := by
  induction l with
  | nil => rfl
  | cons t ts ih =>
    by_cases h : t.name = n
    · rw [List.map_cons, if_pos h]
      rw [List.find?_cons_of_pos _ (by simp [h]), List.find?_cons_of_pos _ (by simp [h])]
      rfl
    · rw [List.map_cons, if_neg h]
      rw [List.find?_cons_of_neg _ (by simp [h]), List.find?_cons_of_neg _ (by simp [h]), ih]

lemma getTableRows_setTableRows (db : Gpkg) (n : String) (rows : List TileRow)
    (tt : Table) (h : db.tables.find? (fun t => t.name = n) = some tt) :
    getTableRows (setTableRows db n rows) n = rows ∧
      (setTableRows db n rows).tables.find? (fun t => t.name = n)
        = some { tt with rows := rows } := by
  have hfind : (setTableRows db n rows).tables.find? (fun t => t.name = n)
      = some { tt with rows := rows } := by
    rw [setTableRows]
    simp only []
    rw [find?_setTableRows_aux, h]
    rfl
  refine ⟨?_, hfind⟩
  rw [getTableRows, hfind]

lemma getTableRows_finalize (db : Gpkg) (n : String) :
    getTableRows (finalizeGeoPackage db) n = getTableRows db n := rfl

/-! The destination table's rows and the reported counts, in terms of the
pure two-pass merge. -/

lemma runMerge_rows (A B : Gpkg) (name now : String) (s : Summary)
    (hname : isSystemTable name = false)
    (h : (runMerge A B name now).result = Except.ok s) :
    getTableRows s.final name = (mergeRows (mergeRows [] B false).1 A true).1 ∧
    s.merged2 = (mergeRows [] B false).2 ∧
    s.merged1 = (mergeRows (mergeRows [] B false).1 A true).2 ∧
    s.totalTiles = (mergeRows (mergeRows [] B false).1 A true).1.length := by
  obtain ⟨t2, hc, hfin, hm2, hm1, htot, _⟩ := runMerge_ok_cases A B name now s h
  have htab : t2.tables = (cleanupExistingTables A).tables ++ [newTileTable name] :=
    createTileTable_ok_tables _ _ _ _ _ _ hc
  obtain ⟨hrows0, hfind0⟩ := getTableRows_created A name hname t2 htab
  have hmtB : mergeTileData t2 name B false
      = (setTableRows t2 name (mergeRows [] B false).1, (mergeRows [] B false).2) := by
    rw [mergeTileData, hrows0]
  obtain ⟨hrowsB, hfindB⟩ :=
    getTableRows_setTableRows t2 name (mergeRows [] B false).1 _ hfind0
  have hrowsB2 : getTableRows (mergeTileData t2 name B false).1 name
      = (mergeRows [] B false).1 := by
    rw [hmtB]
    exact hrowsB
  have hfindB2 : (mergeTileData t2 name B false).1.tables.find? (fun t => t.name = name)
      = some { newTileTable name with rows := (mergeRows [] B false).1 } := by
    rw [hmtB]
    exact hfindB
  have hmtA : mergeTileData (mergeTileData t2 name B false).1 name A true
      = (setTableRows (mergeTileData t2 name B false).1 name
          (mergeRows (mergeRows [] B false).1 A true).1,
        (mergeRows (mergeRows [] B false).1 A true).2) := by
    rw [mergeTileData, hrowsB2]
  obtain ⟨hrowsA, _⟩ := getTableRows_setTableRows (mergeTileData t2 name B false).1 name
    (mergeRows (mergeRows [] B false).1 A true).1 _ hfindB2
  have hfinal : getTableRows s.final name
      = (mergeRows (mergeRows [] B false).1 A true).1 := by
    rw [hfin, getTableRows_finalize, hmtA]
    exact hrowsA
  refine ⟨hfinal, ?_, ?_, ?_⟩
  · rw [hm2, hmtB]
  · rw [hm1, hmtA]
  · rw [htot, hfinal]

end GpkgMerge

namespace GpkgMerge

/-! ## Literal prefixes always match the reserved `LIKE` patterns -/

lemma likeMatch_pct_nil (s : List Char) : likeMatch ['%'] s = true := by
  show likeMatch ('%' :: []) s = true
  unfold likeMatch
  rw [if_pos rfl, List.any_eq_true]
  refine ⟨s.length, List.mem_range.mpr (Nat.lt_succ_self _), ?_⟩
  simp [likeMatch, List.drop_length]

lemma likeCharMatch_self (c : Char) : likeCharMatch c c = true := by
  simp [likeCharMatch]

lemma likeMatch_lit_pct (lit rest : List Char) :
    likeMatch (lit ++ ['%']) (lit ++ rest) = true := by
  induction lit with
  | nil => simpa using likeMatch_pct_nil rest
  | cons p ps ih =>
    rw [List.cons_append, List.cons_append]
    by_cases hp : p = '%'
    · unfold likeMatch
      rw [if_pos hp, List.any_eq_true]
      refine ⟨1, List.mem_range.mpr ?_, ?_⟩
      · simp
      · simpa using ih
    · unfold likeMatch
      rw [if_neg hp]
      simp [likeCharMatch_self, ih]

lemma sqlLike_of_litPrefix (lit pat name : String)
    (hpat : pat.toList = lit.toList ++ ['%'])
    (h : litPrefixOf lit name = true) : sqlLike pat name = true := by
  rw [litPrefixOf] at h
  obtain ⟨rest, hrest⟩ := List.isPrefixOf_iff_prefix.mp h
  rw [sqlLike, hpat, ← hrest]
  exact likeMatch_lit_pct _ _

lemma isSystemTable_of_litPrefix (name : String)
    (h : (litPrefixOf "sqlite_" name || litPrefixOf "gpkg_" name ||
          litPrefixOf "rtree_" name || litPrefixOf "idx_" name) = true) :
    isSystemTable name = true := by
  rw [isSystemTable]
  rcases Bool.or_eq_true_iff.mp h with h3 | h4
  · rcases Bool.or_eq_true_iff.mp h3 with h1 | h2
    · rcases Bool.or_eq_true_iff.mp h1 with h0 | h0
      · rw [sqlLike_of_litPrefix "sqlite_" "sqlite_%" name (by decide) h0]
        rfl
      · rw [sqlLike_of_litPrefix "gpkg_" "gpkg_%" name (by decide) h0]
        simp
    · rw [sqlLike_of_litPrefix "rtree_" "rtree_%" name (by decide) h2]
      simp
  · rw [sqlLike_of_litPrefix "idx_" "idx_%" name (by decide) h4]
    simp

/-! ## Counting catalog rows after `INSERT OR REPLACE` -/

lemma filter_not_filter_nil {α : Type} (p : α → Bool) (l : List α) :
    (l.filter (fun x => !p x)).filter p = [] := by
  rw [List.filter_eq_nil_iff]
  intro a ha
  have h := (List.mem_filter.mp ha).2
  simp only [Bool.not_eq_true', Bool.not_eq_true] at h
  simp [h]

lemma filter_comm_of_imp {α : Type} (p q : α → Bool) (l : List α)
    (h : ∀ a, q a = true → p a = true) :
    (l.filter p).filter q = l.filter q := by
  induction l with
  | nil => rfl
  | cons a l ih =>
    by_cases hq : q a = true
    · have hp : p a = true := h a hq
      simp [List.filter_cons, hp, hq, ih]
    · simp only [Bool.not_eq_true] at hq
      by_cases hp : p a = true
      · simp [List.filter_cons, hp, hq, ih]
      · simp only [Bool.not_eq_true] at hp
        simp [List.filter_cons, hp, hq, ih]

lemma count_replaceContents (rows : List ContentsRow) (r : ContentsRow) :
    ((replaceContents rows r).filter (fun c => c.table_name = r.table_name)).length = 1 := by
  rw [replaceContents, List.filter_append, filter_not_filter_nil]
  simp

lemma count_replaceTms (rows : List TmsRow) (r : TmsRow) :
    ((replaceTms rows r).filter (fun x => x.table_name = r.table_name)).length = 1 := by
  rw [replaceTms, List.filter_append, filter_not_filter_nil]
  simp

lemma count_replaceTm_self (rows : List TmRow) (r : TmRow) :
    ((replaceTm rows r).filter
      (fun x => x.table_name = r.table_name ∧ x.zoom_level = r.zoom_level)).length = 1 := by
  rw [replaceTm, List.filter_append, filter_not_filter_nil]
  simp

lemma count_replaceTm_other (rows : List TmRow) (r : TmRow) (n : String) (z : Nat)
    (h : ¬ (r.table_name = n ∧ r.zoom_level = z)) :
    ((replaceTm rows r).filter (fun x => x.table_name = n ∧ x.zoom_level = z)).length
      = (rows.filter (fun x => x.table_name = n ∧ x.zoom_level = z)).length := by
  rw [replaceTm, List.filter_append]
  have h2 : List.filter (fun x => decide (x.table_name = n ∧ x.zoom_level = z)) [r] = [] := by
    simp [h]
  rw [h2, List.append_nil]
  congr 1
  apply filter_comm_of_imp
  intro a ha
  have haz : a.table_name = n ∧ a.zoom_level = z := of_decide_eq_true ha
  simp only [Bool.not_eq_eq_eq_not, Bool.not_true, decide_eq_false_iff_not]
  intro hcon
  exact h ⟨hcon.1.symm.trans haz.1, hcon.2.symm.trans haz.2⟩

lemma count_tm_fold_untouched (tn : String) (ms init : List TmRow) (z : Nat)
    (hz : z ∉ ms.map (fun m => m.zoom_level)) :
    ((ms.foldl (fun acc m => replaceTm acc { m with table_name := tn }) init).filter
        (fun x => x.table_name = tn ∧ x.zoom_level = z)).length
      = (init.filter (fun x => x.table_name = tn ∧ x.zoom_level = z)).length := by
  induction ms generalizing init with
  | nil => rfl
  | cons m rest ih =>
    rw [List.map_cons, List.mem_cons] at hz
    push_neg at hz
    rw [List.foldl_cons, ih _ hz.2]
    refine count_replaceTm_other init _ tn z ?_
    intro hcon
    exact hz.1 hcon.2.symm

lemma count_tm_fold_mem (tn : String) (ms init : List TmRow) (z : Nat)
    (hz : z ∈ ms.map (fun m => m.zoom_level)) :
    ((ms.foldl (fun acc m => replaceTm acc { m with table_name := tn }) init).filter
        (fun x => x.table_name = tn ∧ x.zoom_level = z)).length = 1 := by
  induction ms generalizing init with
  | nil => simp at hz
  | cons m rest ih =>
    rw [List.foldl_cons]
    by_cases hr : z ∈ rest.map (fun m => m.zoom_level)
    · exact ih _ hr
    · rw [List.map_cons, List.mem_cons] at hz
      rcases hz with hz | hz
      · rw [count_tm_fold_untouched tn rest _ z hr]
        subst hz
        exact count_replaceTm_self init { m with table_name := tn }
      · exact absurd hz hr

lemma tm_fold_append (tn : String) (ms init : List TmRow)
    (hinit : ∀ m ∈ init, m.table_name = tn →
      m.zoom_level ∉ ms.map (fun x => x.zoom_level))
    (hnodup : (ms.map (fun x => x.zoom_level)).Nodup) :
    ms.foldl (fun acc m => replaceTm acc { m with table_name := tn }) init
      = init ++ ms.map (fun m => { m with table_name := tn }) := by
  induction ms generalizing init with
  | nil => simp
  | cons m rest ih =>
    rw [List.map_cons, List.nodup_cons] at hnodup
    have hfil : replaceTm init { m with table_name := tn }
        = init ++ [{ m with table_name := tn }] := by
      rw [replaceTm]
      congr 1
      apply List.filter_eq_self.mpr
      intro x hx
      simp only [Bool.not_eq_eq_eq_not, Bool.not_true, decide_eq_false_iff_not]
      intro hcon
      have := hinit x hx hcon.1
      rw [List.map_cons] at this
      exact this (List.mem_cons.mpr (Or.inl hcon.2))
    have hinit2 : ∀ x ∈ init ++ [{ m with table_name := tn }], x.table_name = tn →
        x.zoom_level ∉ rest.map (fun x => x.zoom_level) := by
      intro x hx hxtn
      rcases List.mem_append.mp hx with hx | hx
      · intro hmem
        have := hinit x hx hxtn
        rw [List.map_cons] at this
        exact this (List.mem_cons.mpr (Or.inr hmem))
      · rcases List.mem_cons.mp hx with hx | hx
        · subst hx
          exact hnodup.1
        · simp at hx
    rw [List.foldl_cons, hfil, ih _ hinit2 hnodup.2, List.map_cons,
      List.append_assoc, List.singleton_append]

lemma any_tm_fold (tn : String) (ms init : List TmRow) (hne : ms ≠ []) :
    ((ms.foldl (fun acc m => replaceTm acc { m with table_name := tn }) init).any
      (fun x => x.table_name = tn)) = true := by
  induction ms generalizing init with
  | nil => exact absurd rfl hne
  | cons m rest ih =>
    rw [List.foldl_cons]
    by_cases hr : rest = []
    · subst hr
      rw [List.foldl_nil, replaceTm, List.any_append]
      simp
    · exact ih _ hr

end GpkgMerge

namespace GpkgMerge

/-! ## When the metadata templater throws -/

lemma hasTmRows_iff_filter_ne_nil (db : Gpkg) (n : String) :
    hasTmRows db n = false ↔ (db.tm.filter (fun m => m.table_name = n)).isEmpty = true := by
  rw [hasTmRows, List.any_eq_false, List.isEmpty_iff, List.filter_eq_nil_iff]

lemma copyTileMetadata_err_iff (src tgt : Gpkg) (sn tn now : String) :
    isErrG (copyTileMetadata src tgt sn tn now) = true ↔
      (hasContentsEntry src sn = false ∨ hasTmsEntry src sn = false ∨
        hasTmRows src sn = false) := by
  rw [copyTileMetadata]
  cases hc : src.contents.find? (fun c => c.table_name = sn) with
  | none =>
    have h1 : hasContentsEntry src sn = false := by
      rw [hasContentsEntry, List.any_eq_false]
      rw [List.find?_eq_none] at hc
      exact hc
    simp [isErrG, h1]
  | some ce =>
    have hc1 := List.find?_some hc
    have h1 : hasContentsEntry src sn = true := by
      rw [hasContentsEntry, List.any_eq_true]
      exact ⟨ce, List.mem_of_find?_eq_some hc, hc1⟩
    cases hts : src.tms.find? (fun x => x.table_name = sn) with
    | none =>
      have h2 : hasTmsEntry src sn = false := by
        rw [hasTmsEntry, List.any_eq_false]
        rw [List.find?_eq_none] at hts
        exact hts
      simp [isErrG, h2]
    | some ts =>
      have hts1 := List.find?_some hts
      have h2 : hasTmsEntry src sn = true := by
        rw [hasTmsEntry, List.any_eq_true]
        exact ⟨ts, List.mem_of_find?_eq_some hts, hts1⟩
      by_cases he : (src.tm.filter (fun m => m.table_name = sn)).isEmpty = true
      · have h3 : hasTmRows src sn = false := (hasTmRows_iff_filter_ne_nil src sn).mpr he
        simp [isErrG, h3, he]
      · have h3 : hasTmRows src sn = true := by
          cases h0 : hasTmRows src sn with
          | true => rfl
          | false => exact absurd ((hasTmRows_iff_filter_ne_nil src sn).mp h0) he
        simp [isErrG, h1, h2, h3, he]

lemma copyTileMetadata_ok_writes (src tgt : Gpkg) (sn tn now : String) (out : Gpkg)
    (h : copyTileMetadata src tgt sn tn now = Except.ok out) :
    hasContentsEntry out tn = true ∧ hasTmsEntry out tn = true ∧
      out.tm.any (fun m => m.table_name = tn) = true := by
  obtain ⟨ce, ts, _, _, hne, hout⟩ := copyTileMetadata_ok_cases src tgt sn tn now out h
  subst hout
  refine ⟨?_, ?_, ?_⟩
  · rw [hasContentsEntry]
    simp only []
    rw [replaceContents, List.any_append]
    simp
  · rw [hasTmsEntry]
    simp only []
    rw [replaceTms, List.any_append]
    simp
  · simp only []
    apply any_tm_fold
    intro hnil
    rw [hnil] at hne
    cases hne

/-! ## The interpolated `ATTACH DATABASE` statement -/

lemma expectChars_self (l r : List Char) : expectChars l (l ++ r) = some r := by
  induction l with
  | nil => rfl
  | cons c cs ih => simp [expectChars, ih]

lemma scanLit_base (d : Char) (ds : List Char) (hd : ¬ d = squoteChar) :
    scanLit (squoteChar :: d :: ds) = some ([], d :: ds) := by
  rw [scanLit]
  rw [if_pos rfl, if_neg hd]

lemma scanLit_no_quote (l : List Char) (d : Char) (ds : List Char)
    (hl : ∀ c ∈ l, ¬ c = squoteChar) (hd : ¬ d = squoteChar) :
    scanLit (l ++ squoteChar :: d :: ds) = some (l, d :: ds) := by
  induction l with
  | nil =>
    rw [List.nil_append]
    exact scanLit_base d ds hd
  | cons c cs ih =>
    have hc : ¬ c = squoteChar := hl c (List.mem_cons_self _ _)
    have hcs : ∀ x ∈ cs, ¬ x = squoteChar := fun x hx => hl x (List.mem_cons_of_mem _ hx)
    rw [List.cons_append]
    cases cs with
    | nil =>
      rw [List.nil_append]
      rw [scanLit, if_neg hc, scanLit_base d ds hd]
    | cons c2 cs2 =>
      rw [List.cons_append]
      rw [scanLit, if_neg hc]
      rw [← List.cons_append]
      rw [ih hcs]

lemma toList_append (a b : String) : (a ++ b).toList = a.toList ++ b.toList :=
  String.data_append a b

lemma singleton_toList (c : Char) : (String.singleton c).toList = [c] := rfl

lemma attachStmt_toList (p : String) :
    (attachStmt p).toList
      = attachHeadChars ++ (p.toList ++ (squoteChar :: attachTailChars)) := by
  rw [attachStmt, attachHeadChars, attachTailChars]
  simp [toList_append, singleton_toList, List.append_assoc]

lemma string_mk_toList (p : String) : String.mk p.toList = p := rfl

lemma parseAttach_no_quote (p : String) (h : containsSQuote p = false) :
    parseAttach (attachStmt p) = some p := by
  have hl : ∀ c ∈ p.toList, ¬ c = squoteChar := by
    rw [containsSQuote, List.any_eq_false] at h
    intro c hc
    simpa using h c hc
  have htail : attachTailChars = ' ' :: "AS source_db".toList := by decide
  rw [parseAttach, attachStmt_toList, expectChars_self]
  simp only []
  rw [htail, scanLit_no_quote p.toList ' ' ("AS source_db".toList) hl (by decide)]
  simp only [if_true]
  rw [string_mk_toList]

end GpkgMerge

namespace GpkgMerge

lemma hasKey_of_mem (l : List TileRow) (r : TileRow) (h : r ∈ l) :
    hasKey l r.key = true := by
  rw [hasKey, List.any_eq_true]
  exact ⟨r, h, by simp⟩

/-- After a successful run, the output's `gpkg_tile_matrix` content is the
clone of A's rows with the template's rows re-registered under the new
table name — regardless of B's zoom levels. -/
lemma runMerge_final_tm (A B : Gpkg) (name now : String) (s : Summary)
    (h : (runMerge A B name now).result = Except.ok s)
    (t1 : Table) (ht1 : findTileTable A = some t1) :
    s.final.tm = (A.tm.filter (fun m => m.table_name = t1.name)).foldl
      (fun acc m => replaceTm acc { m with table_name := name }) A.tm := by
  obtain ⟨t2, hc, hfin, _, _, _, _⟩ := runMerge_ok_cases A B name now s h
  have htm : s.final.tm = t2.tm := by
    rw [hfin]
    rfl
  rcases createTileTable_cases _ _ _ _ _ _ hc with ⟨t1', ht1', hcopy⟩ | ⟨hnone, _⟩
  · rw [ht1] at ht1'
    injection ht1' with ht1e
    subst ht1e
    obtain ⟨ce, ts, _, _, _, hout⟩ := copyTileMetadata_ok_cases _ _ _ _ _ _ hcopy
    rw [htm, hout]
    rfl
  · rw [ht1] at hnone
    cases hnone

end GpkgMerge

namespace GpkgMerge

/-! ## Inserting rows whose keys are fresh and pairwise distinct -/

lemma insertReplaceRow_fresh (t : List TileRow) (r : TileRow)
    (h : hasKey t r.key = false) :
    insertReplaceRow t r = t ++ [r] := by
  rw [insertReplaceRow]
  congr 1
  apply List.filter_eq_self.mpr
  intro x hx
  rw [hasKey, List.any_eq_false] at h
  simpa using h x hx

lemma insertIgnoreRow_fresh (t : List TileRow) (r : TileRow)
    (h : hasKey t r.key = false) :
    insertIgnoreRow t r = (t ++ [r], 1) := by
  rw [insertIgnoreRow, if_neg (by simp [h])]

lemma insertRows_fresh (pol : Bool) (t rs : List TileRow)
    (hnodup : keysNodup rs)
    (hfresh : ∀ r ∈ rs, hasKey t r.key = false) :
    insertRows pol t rs = (t ++ rs, rs.length) := by
  induction rs generalizing t with
  | nil => simp [insertRows]
  | cons r rest ih =>
    have hfr : hasKey t r.key = false := hfresh r (List.mem_cons_self _ _)
    rw [keysNodup, List.map_cons, List.nodup_cons] at hnodup
    have hfresh2 : ∀ x ∈ rest, hasKey (t ++ [r]) x.key = false := by
      intro x hx
      rw [hasKey_append]
      have h1 : hasKey t x.key = false := hfresh x (List.mem_cons_of_mem _ hx)
      have h2 : hasKey [r] x.key = false := by
        simp only [hasKey, List.any_cons, List.any_nil, Bool.or_false,
          decide_eq_false_iff_not]
        intro he
        exact hnodup.1 (he ▸ List.mem_map_of_mem _ hx)
      rw [h1, h2]
      rfl
    have hrec := ih (t ++ [r]) hnodup.2 hfresh2
    cases pol with
    | true =>
      simp only [insertRows, if_true, insertIgnoreRow_fresh t r hfr, hrec]
      simp [List.append_assoc, Nat.add_comm]
    | false =>
      simp only [insertRows, Bool.false_eq_true, if_false,
        insertReplaceRow_fresh t r hfr, hrec]
      simp [List.append_assoc, Nat.add_comm]

lemma mergeRowsTables_fresh (pol : Bool) (t : List TileRow) (tbls : List Table)
    (hnodup : keysNodup (pooledTables tbls))
    (hfresh : ∀ r ∈ pooledTables tbls, hasKey t r.key = false) :
    mergeRowsTables pol t tbls = (t ++ pooledTables tbls, (pooledTables tbls).length) := by
  induction tbls generalizing t with
  | nil => simp [mergeRowsTables, pooledTables]
  | cons tbl rest ih =>
    by_cases ht : isTileTable tbl = true
    · have hpool : pooledTables (tbl :: rest) = tbl.rows ++ pooledTables rest := by
        simp [pooledTables, ht]
      rw [hpool] at hnodup hfresh ⊢
      rw [keysNodup, List.map_append, List.nodup_append] at hnodup
      have hnr : keysNodup tbl.rows := hnodup.1
      have hnp : keysNodup (pooledTables rest) := hnodup.2.1
      have hd := hnodup.2.2
      have hrows := insertRows_fresh pol t tbl.rows hnr
        (fun r hr => hfresh r (List.mem_append.mpr (Or.inl hr)))
      have hfresh2 : ∀ r ∈ pooledTables rest, hasKey (t ++ tbl.rows) r.key = false := by
        intro r hr
        rw [hasKey_append]
        have h1 : hasKey t r.key = false := hfresh r (List.mem_append.mpr (Or.inr hr))
        have h2 : hasKey tbl.rows r.key = false := by
          simp only [hasKey, List.any_eq_false]
          intro x hx he
          have hxe : x.key = r.key := of_decide_eq_true he
          exact hd (hxe ▸ List.mem_map_of_mem _ hx) (List.mem_map_of_mem _ hr)
        rw [h1, h2]
        rfl
      have hrec := ih (t ++ tbl.rows) hnp hfresh2
      simp only [mergeRowsTables, ht, if_true, hrows, hrec]
      simp [List.append_assoc, List.length_append, Nat.add_comm]
    · simp only [Bool.not_eq_true] at ht
      have hpool : pooledTables (tbl :: rest) = pooledTables rest := by
        simp [pooledTables, ht]
      rw [hpool] at hnodup hfresh ⊢
      simp only [mergeRowsTables, ht, Bool.false_eq_true, if_false]
      exact ih t hnodup hfresh

lemma mergeRows_disjoint (A B : Gpkg)
    (hnA : keysNodup (pooledRows A)) (hnB : keysNodup (pooledRows B))
    (hdisj : ∀ r ∈ pooledRows A, hasKey (pooledRows B) r.key = false) :
    mergeRows [] B false = (pooledRows B, (pooledRows B).length) ∧
    mergeRows (pooledRows B) A true
      = (pooledRows B ++ pooledRows A, (pooledRows A).length) := by
  constructor
  · rw [mergeRows]
    rw [mergeRowsTables_fresh false [] (getDataTables B) hnB (fun r _ => rfl)]
    rfl
  · rw [mergeRows]
    exact mergeRowsTables_fresh true (pooledRows B) (getDataTables A) hnA hdisj

end GpkgMerge

namespace GpkgMerge

/-! ## The claims -/

/-- C1: Priority law.  For every pair of sources A (first CLI argument) and
B (second CLI argument) that both contain a tile row with the same key, the
row stored in the merged output table under that key holds a payload that B
supplied at that key — never A's: the `REPLACE` pass from B establishes the
value and the `IGNORE` pass from A cannot overwrite it. -/
theorem c1_priority_law (A B : Gpkg) (name now : String) (s : Summary)
    (hname : isSystemTable name = false)
    (h : (runMerge A B name now).result = Except.ok s)
    (k : TileKey) (hA : sourceHasKey A k = true) (hB : sourceHasKey B k = true) :
    ∃ p, lookupKey (getTableRows s.final name) k = some p ∧
      (⟨k, p⟩ : TileRow) ∈ pooledRows B := by
  obtain ⟨hrows, _, _, _⟩ := runMerge_rows A B name now s hname h
  rw [hrows]
  have hBkey : hasKey ((mergeRows [] B false).1) k = true := by
    rw [mergeRows, hasKey_mergeRowsTables]
    simp only [hasKey_nil, Bool.false_or]
    rw [sourceHasKey, pooledRows] at hB
    exact hB
  obtain ⟨p, hp⟩ := exists_lookupKey_of_hasKey _ _ hBkey
  refine ⟨p, ?_, ?_⟩
  · rw [mergeRows, lookupKey_mergeRowsTables_ignore_of_hasKey _ _ _ hBkey]
    exact hp
  · have hp2 : lookupKey ((mergeRowsTables false [] (getDataTables B)).1) k = some p := by
      rw [mergeRows] at hp
      exact hp
    rcases lookupKey_mergeRowsTables_replace_mem [] (getDataTables B) k p hp2 with hnil | hmem
    · exact Option.noConfusion hnil
    · exact hmem

/-- C1 witness: the key (0,0,0) is present in both concrete sources, and the
merged output stores one of B's payloads for it. -/
theorem c1_priority_law_witness :
    ∃ p, lookupKey (getTableRows sumC7.final "merged_tiles") ⟨0, 0, 0⟩ = some p ∧
      (⟨⟨0, 0, 0⟩, p⟩ : TileRow) ∈ pooledRows fileB7 :=
  c1_priority_law fileA7 fileB7 "merged_tiles" "t1" sumC7 (by decide) (by rfl)
    ⟨0, 0, 0⟩ (by decide) (by decide)

/-- C2: Disjoint union.  When the two sources' tile key sets are disjoint
(and each source's keys are unique, per the tile-table UNIQUE invariant),
the merged table holds exactly |A-tiles| + |B-tiles| rows and every key from
either source maps to that source's unmodified payload bytes. -/
theorem c2_disjoint_union (A B : Gpkg) (name now : String) (s : Summary)
    (hname : isSystemTable name = false)
    (h : (runMerge A B name now).result = Except.ok s)
    (hnA : keysNodup (pooledRows A)) (hnB : keysNodup (pooledRows B))
    (hdisj : ∀ r ∈ pooledRows A, hasKey (pooledRows B) r.key = false) :
    s.totalTiles = (pooledRows A).length + (pooledRows B).length ∧
    (∀ r ∈ pooledRows A, lookupKey (getTableRows s.final name) r.key = some r.data) ∧
    (∀ r ∈ pooledRows B, lookupKey (getTableRows s.final name) r.key = some r.data) := by
  obtain ⟨hrows, _, _, htot⟩ := runMerge_rows A B name now s hname h
  obtain ⟨hB, hA2⟩ := mergeRows_disjoint A B hnA hnB hdisj
  have h1 : (mergeRows [] B false).1 = pooledRows B := by rw [hB]
  have h2 : (mergeRows (mergeRows [] B false).1 A true).1
      = pooledRows B ++ pooledRows A := by rw [h1, hA2]
  refine ⟨?_, ?_, ?_⟩
  · rw [htot, h2, List.length_append, Nat.add_comm]
  · intro r hr
    rw [hrows, h2, lookupKey_append_right _ _ _ (hdisj r hr)]
    exact lookupKey_of_mem_nodup _ r hr hnA
  · intro r hr
    rw [hrows, h2, lookupKey_append_left _ _ _ (hasKey_of_mem _ r hr)]
    exact lookupKey_of_mem_nodup _ r hr hnB

/-- C2 witness: a concrete disjoint pair, with three tiles altogether. -/
theorem c2_disjoint_union_witness :
    sumC2.totalTiles = (pooledRows fileA2).length + (pooledRows fileB2).length ∧
    (∀ r ∈ pooledRows fileA2,
      lookupKey (getTableRows sumC2.final "merged_tiles") r.key = some r.data) ∧
    (∀ r ∈ pooledRows fileB2,
      lookupKey (getTableRows sumC2.final "merged_tiles") r.key = some r.data) :=
  c2_disjoint_union fileA2 fileB2 "merged_tiles" "t1" sumC2 (by decide) (by rfl)
    (by decide) (by decide) (by decide)

/-- C3 counterexample: with A's tile matrix covering zoom 0 only and B
contributing tiles at zoom 1, the merge succeeds, the merged content spans
zooms 0 and 1, yet the output's `gpkg_tile_matrix` has a row for the merged
table only at zoom 0 — so the table does NOT have a row for exactly each
zoom level holding a tile. -/
theorem c3_counterexample :
    resultError traceC7 = none ∧
    sumC7.zoomLevels = [0, 1] ∧
    tmZoomsFor sumC7.final "merged_tiles" = [0] ∧
    ¬ (1 : Nat) ∈ tmZoomsFor sumC7.final "merged_tiles" := by decide

/-- C3 as amended: after a successful merge the output's `gpkg_tile_matrix`
rows for the merged table cover exactly the zoom levels of the chosen
template source's tile matrix (the first file's tile table when it has one),
not the zoom levels of the merged content. -/
theorem c3_tile_matrix_from_template (A B : Gpkg) (name now : String) (s : Summary)
    (t1 : Table) (ht1 : findTileTable A = some t1)
    (hclean : ∀ m ∈ A.tm, ¬ m.table_name = name)
    (hnodup : ((A.tm.filter (fun m => m.table_name = t1.name)).map
        (fun m => m.zoom_level)).Nodup)
    (h : (runMerge A B name now).result = Except.ok s) :
    tmZoomsFor s.final name
      = (A.tm.filter (fun m => m.table_name = t1.name)).map (fun m => m.zoom_level) := by
  have htm := runMerge_final_tm A B name now s h t1 ht1
  have hfold := tm_fold_append name (A.tm.filter (fun m => m.table_name = t1.name)) A.tm
    (fun m hm hmn => absurd hmn (hclean m hm)) hnodup
  rw [tmZoomsFor, htm, hfold, List.filter_append]
  have hleft : A.tm.filter (fun m => m.table_name = name) = [] := by
    rw [List.filter_eq_nil_iff]
    intro m hm
    simpa using hclean m hm
  have hright : ((A.tm.filter (fun m => m.table_name = t1.name)).map
        (fun m => { m with table_name := name })).filter (fun m => m.table_name = name)
      = (A.tm.filter (fun m => m.table_name = t1.name)).map
        (fun m => { m with table_name := name }) := by
    apply List.filter_eq_self.mpr
    intro x hx
    obtain ⟨m, _, hxm⟩ := List.mem_map.mp hx
    subst hxm
    simp
  rw [hleft, hright, List.nil_append, List.map_map]
  rfl

/-- C3 witness: at the concrete scenario the merged table's tile-matrix rows
are exactly the template's zoom levels. -/
theorem c3_tile_matrix_from_template_witness :
    tmZoomsFor sumC7.final "merged_tiles"
      = (fileA7.tm.filter (fun m => m.table_name = (tileTable "tiles_a"
          [⟨⟨0, 0, 0⟩, [97]⟩]).name)).map (fun m => m.zoom_level) :=
  c3_tile_matrix_from_template fileA7 fileB7 "merged_tiles" "t1" sumC7
    (tileTable "tiles_a" [⟨⟨0, 0, 0⟩, [97]⟩]) (by decide) (by decide) (by decide) (by rfl)

/-- C4 counterexample: with no tile table in either source the run does fail
with NoTileTablesFound, but only after the output file has been written
(`fs.copyFileSync` on line 275 precedes `createTileTable` on line 280) and
after the destination `CREATE TABLE` has executed (line 184 precedes the
throw on line 207). -/
theorem c4_counterexample :
    resultError traceC4 = some MergeError.noTileTables ∧
    traceC4.outputWritten = true ∧
    traceC4.tableCreated = true := by decide

/-- C4 as amended: whenever neither source has a table with a `tile_data`
column, the merge fails with NoTileTablesFound — after the output file has
been cloned to disk and after the destination tile table has been created. -/
theorem c4_no_tile_tables_after_clone (A B : Gpkg) (name now : String)
    (hA : findTileTable A = none) (hB : findTileTable B = none) :
    resultError (runMerge A B name now) = some MergeError.noTileTables ∧
    (runMerge A B name now).outputWritten = true ∧
    (runMerge A B name now).tableCreated = true := by
  have hc : createTileTable (cleanupExistingTables A) name A B now
      = Except.error MergeError.noTileTables := by
    rw [createTileTable, hA, hB]
  have htr : runMerge A B name now =
      { outputWritten := true, tableCreated := true, mergePerformed := false
        result := Except.error MergeError.noTileTables } := by
    rw [runMerge, hc]
  rw [htr]
  exact ⟨rfl, rfl, rfl⟩

/-- C4 witness: the concrete tile-table-free pair. -/
theorem c4_no_tile_tables_after_clone_witness :
    resultError (runMerge fileA4 fileB4 "merged_tiles" "t1")
        = some MergeError.noTileTables ∧
    (runMerge fileA4 fileB4 "merged_tiles" "t1").outputWritten = true ∧
    (runMerge fileA4 fileB4 "merged_tiles" "t1").tableCreated = true :=
  c4_no_tile_tables_after_clone fileA4 fileB4 "merged_tiles" "t1" (by decide) (by decide)

/-- C5: the exit-code selection `error.status === StatusCodes.BAD_REQUEST ?
1 : 2` is dead code — no throw site in the program sets a `status` property,
so every failure (validation and operational alike) exits with code 2; the
claimed distinct codes do not exist. -/
theorem c5_exit_code_collapse :
    (∀ e : MergeError, exitCodeOf e = 2) ∧
    exitCodeOf MergeError.missingFiles = exitCodeOf MergeError.integrityFailed := by
  constructor
  · intro e
    cases e <;> rfl
  · rfl

/-- C6: the Metadata Templater fails exactly when the template table lacks a
`gpkg_contents` entry, lacks a `gpkg_tile_matrix_set` entry, or has zero
`gpkg_tile_matrix` rows; on success it writes all three kinds of catalog
records for the new table name; and when table creation fails, the run
aborts before any tile data is copied. -/
theorem c6_missing_metadata :
    (∀ src tgt : Gpkg, ∀ sn tn now : String,
      isErrG (copyTileMetadata src tgt sn tn now) = true ↔
        (hasContentsEntry src sn = false ∨ hasTmsEntry src sn = false ∨
          hasTmRows src sn = false)) ∧
    (∀ src tgt : Gpkg, ∀ sn tn now : String, ∀ out : Gpkg,
      copyTileMetadata src tgt sn tn now = Except.ok out →
        hasContentsEntry out tn = true ∧ hasTmsEntry out tn = true ∧
          out.tm.any (fun m => m.table_name = tn) = true) ∧
    (∀ A B : Gpkg, ∀ n now : String, ∀ e : MergeError,
      createTileTable (cleanupExistingTables A) n A B now = Except.error e →
        resultError (runMerge A B n now) = some e ∧
          (runMerge A B n now).mergePerformed = false) := by
  refine ⟨fun src tgt sn tn now => copyTileMetadata_err_iff src tgt sn tn now,
    fun src tgt sn tn now out h => copyTileMetadata_ok_writes src tgt sn tn now out h,
    ?_⟩
  intro A B n now e hc
  have htr : runMerge A B n now =
      { outputWritten := true, tableCreated := true, mergePerformed := false
        result := Except.error e } := by
    rw [runMerge, hc]
  rw [htr]
  exact ⟨rfl, rfl⟩

/-- C6 witness: a successful templater call writes the three catalog
records, and a run whose template lacks all catalog rows aborts with no
tile copy performed. -/
theorem c6_missing_metadata_witness :
    (hasContentsEntry c8out1 "merged_tiles" = true ∧
      hasTmsEntry c8out1 "merged_tiles" = true ∧
      c8out1.tm.any (fun m => m.table_name = "merged_tiles") = true) ∧
    (resultError (runMerge fileA6 fileB4 "merged_tiles" "t1")
        = some (MergeError.noContentsEntry "tiles_a") ∧
      (runMerge fileA6 fileB4 "merged_tiles" "t1").mergePerformed = false) :=
  ⟨c6_missing_metadata.2.1 fileB7 fileA7 "tiles_b" "merged_tiles" "t1" c8out1 (by rfl),
    c6_missing_metadata.2.2 fileA6 fileB4 "merged_tiles" "t1"
      (MergeError.noContentsEntry "tiles_a") (by rfl)⟩

/-- C7: the reported counts are rows actually written, not attempted: in the
concrete scenario A = {(0,0,0)->"a"}, B = {(0,0,0)->"b", (1,0,1)->"c"}, the
run reports 2 tiles from B, 0 new tiles from A, and the merged table holds
exactly the two tiles (0,0,0)->"b" and (1,0,1)->"c". -/
theorem c7_reported_counts :
    resultError traceC7 = none ∧
    sumC7.merged2 = 2 ∧ sumC7.merged1 = 0 ∧ sumC7.totalTiles = 2 ∧
    getTableRows sumC7.final "merged_tiles"
      = [⟨⟨0, 0, 0⟩, [98]⟩, ⟨⟨1, 0, 1⟩, [99]⟩] := by decide

/-- C8: metadata write is idempotent — after invoking the templater twice
with the same source table and target name, exactly one `gpkg_contents` row
and one `gpkg_tile_matrix_set` row exist for the target name, and exactly
one `gpkg_tile_matrix` row per template zoom level. -/
theorem c8_idempotent (src tgt : Gpkg) (sn tn now1 now2 : String) (out1 out2 : Gpkg)
    (h1 : copyTileMetadata src tgt sn tn now1 = Except.ok out1)
    (h2 : copyTileMetadata src out1 sn tn now2 = Except.ok out2) :
    (out2.contents.filter (fun c => c.table_name = tn)).length = 1 ∧
    (out2.tms.filter (fun x => x.table_name = tn)).length = 1 ∧
    ∀ z ∈ (src.tm.filter (fun m => m.table_name = sn)).map (fun m => m.zoom_level),
      (out2.tm.filter (fun x => x.table_name = tn ∧ x.zoom_level = z)).length = 1 := by
  obtain ⟨ce, ts, _, _, _, hout⟩ := copyTileMetadata_ok_cases src out1 sn tn now2 out2 h2
  subst hout
  refine ⟨?_, ?_, ?_⟩
  · exact count_replaceContents out1.contents
      { table_name := tn
        data_type := ce.data_type
        identifier := tn
        description := "Merged tiles from " ++ sn
        last_change := now2
        min_x := ce.min_x, min_y := ce.min_y, max_x := ce.max_x, max_y := ce.max_y
        srs_id := ce.srs_id }
  · exact count_replaceTms out1.tms
      { table_name := tn
        srs_id := ts.srs_id
        min_x := ts.min_x, min_y := ts.min_y, max_x := ts.max_x, max_y := ts.max_y }
  · intro z hz
    exact count_tm_fold_mem tn (src.tm.filter (fun m => m.table_name = sn)) out1.tm z hz

/-- C8 witness: two concrete invocations leave single catalog rows. -/
theorem c8_idempotent_witness :
    (c8out2.contents.filter (fun c => c.table_name = "merged_tiles")).length = 1 ∧
    (c8out2.tms.filter (fun x => x.table_name = "merged_tiles")).length = 1 ∧
    ∀ z ∈ (fileB7.tm.filter (fun m => m.table_name = "tiles_b")).map
        (fun m => m.zoom_level),
      (c8out2.tm.filter (fun x => x.table_name = "merged_tiles" ∧
        x.zoom_level = z)).length = 1 :=
  c8_idempotent fileB7 fileA7 "tiles_b" "merged_tiles" "t1" "t2" c8out1 c8out2
    (by rfl) (by rfl)

/-- C9 counterexample: `gpkg1data` does not begin with any of the reserved
literal prefixes — by the claim's criterion it is a user data table — yet
cleanup leaves it in place, because the SQL `LIKE` pattern `gpkg_%` matches
it (`_` is a single-character wildcard). -/
theorem c9_counterexample :
    litPrefixOf "sqlite_" "gpkg1data" = false ∧
    litPrefixOf "gpkg_" "gpkg1data" = false ∧
    litPrefixOf "rtree_" "gpkg1data" = false ∧
    litPrefixOf "idx_" "gpkg1data" = false ∧
    (cleanupExistingTables fileC9).tables.any (fun t => t.name = "gpkg1data") = true := by
  decide

/-- C9 as amended: cleanup drops exactly the tables whose names match none
of the four reserved `LIKE` patterns; every table whose name literally
begins with `sqlite_`, `gpkg_`, `rtree_` or `idx_` is kept, and the catalog
tables are untouched — but tables that match a pattern only through the `_`
wildcard or ASCII case-folding are kept as well. -/
theorem c9_cleanup_patterns :
    (∀ db : Gpkg, (cleanupExistingTables db).tables
        = db.tables.filter (fun t => isSystemTable t.name)) ∧
    (∀ db : Gpkg, ∀ t ∈ db.tables,
      (litPrefixOf "sqlite_" t.name || litPrefixOf "gpkg_" t.name ||
        litPrefixOf "rtree_" t.name || litPrefixOf "idx_" t.name) = true →
      t ∈ (cleanupExistingTables db).tables) ∧
    (∀ db : Gpkg, (cleanupExistingTables db).contents = db.contents ∧
      (cleanupExistingTables db).tms = db.tms ∧
      (cleanupExistingTables db).tm = db.tm) := by
  refine ⟨fun db => rfl, ?_, fun db => ⟨rfl, rfl, rfl⟩⟩
  intro db t ht hlit
  rw [cleanupExistingTables]
  exact List.mem_filter.mpr ⟨ht, isSystemTable_of_litPrefix t.name hlit⟩

/-- C9 witness: the literally-prefixed spatial-index table survives cleanup. -/
theorem c9_cleanup_patterns_witness :
    ({ name := "rtree_tiles_geom", columns := ["id"], rows := [] } : Table)
      ∈ (cleanupExistingTables fileC9).tables :=
  c9_cleanup_patterns.2.1 fileC9
    { name := "rtree_tiles_geom", columns := ["id"], rows := [] }
    (by decide) (by decide)

/-- C10: the `ATTACH DATABASE` text is built by direct interpolation of the
source path between single quotes: for every path free of single quotes the
statement parses back to exactly that path, while the concrete quoted path
`data/o'k.gpkg` yields a malformed statement (the literal closes early and
the trailing text is not the `AS` clause), so the merge throws. -/
theorem c10_attach_interpolation :
    (∀ p : String, containsSQuote p = false → parseAttach (attachStmt p) = some p) ∧
    (containsSQuote badPathC10 = true ∧ parseAttach (attachStmt badPathC10) = none) := by
  refine ⟨fun p h => parseAttach_no_quote p h, by decide, by decide⟩

/-- C10 witness: a quote-free path parses back to itself. -/
theorem c10_attach_interpolation_witness :
    parseAttach (attachStmt "data/a.gpkg") = some "data/a.gpkg" :=
  c10_attach_interpolation.1 "data/a.gpkg" (by decide)

end GpkgMerge
